import Mathlib

/-!
Verification development for the `astrbot_plugin_personal_selfupdate` plugin.

The Python sources (`main.py`, `core/tools.py`, `core/textbuild.py`) are
shallowly embedded below: pure helpers become Lean functions over `List Char`
and a small dynamic-value type `PyVal`; the stateful agent loop becomes a
fuel-indexed recursion over an explicit transcript; fallible host calls are
`Except`-valued oracles supplied as parameters.
-/

/-! ## Python string primitives (whitespace, strip, split, substring search) -/

/-- ASCII whitespace recognised by Python's `str.strip` / `str.split(None)`
(restricted to the ASCII range, which covers every string this plugin builds). -/
def isWs (c : Char) : Bool :=
  c == ' ' || c == '\t' || c == '\n' || c == '\r' || c == '\x0b' || c == '\x0c'

/-- Drop leading whitespace. -/
def ldw (l : List Char) : List Char := l.dropWhile isWs

/-- Drop trailing whitespace. -/
def rdw (l : List Char) : List Char := (l.reverse.dropWhile isWs).reverse

/-- Python `str.strip()` on a character list. -/
def pyStripL (l : List Char) : List Char := rdw (ldw l)

/-- Python `str.strip()`. -/
def pyStrip (s : String) : String := ⟨pyStripL s.data⟩

/-- Does `pat` start the list `l` (character-wise)? -/
def chPre : List Char → List Char → Bool
  | [], _ => true
  | _ :: _, [] => false
  | p :: ps, c :: cs => p == c && chPre ps cs

/-- The suffix after the first occurrence of `pat`, if `pat` occurs at all.
This simultaneously models Python's `pat in s` (`isSome`) and
`s.split(pat, 1)[1]` (the returned suffix). -/
def afterFirstSub (pat : List Char) : List Char → Option (List Char)
  | [] => if pat.isEmpty then some [] else none
  | c :: cs => if chPre pat (c :: cs) then some ((c :: cs).drop pat.length)
               else afterFirstSub pat cs

/-- Python's substring containment `pat in l`. -/
def hasSub (pat l : List Char) : Bool := (afterFirstSub pat l).isSome

/-- Python `raw.split(None, 2)`: split on whitespace runs into at most three
parts, the third keeping the remaining text verbatim (leading whitespace of the
remainder stripped, as CPython does). -/
def pySplitMax2 (l : List Char) : List (List Char) :=
  let l1 := l.dropWhile isWs
  match l1 with
  | [] => []
  | _ :: _ =>
    let t1 := l1.takeWhile (fun c => !isWs c)
    let r1 := (l1.dropWhile (fun c => !isWs c)).dropWhile isWs
    match r1 with
    | [] => [t1]
    | _ :: _ =>
      let t2 := r1.takeWhile (fun c => !isWs c)
      let r2 := (r1.dropWhile (fun c => !isWs c)).dropWhile isWs
      match r2 with
      | [] => [t1, t2]
      | _ :: _ => [t1, t2, r2]

/-! ## `main.py` constants and `_extract_completion_text` -/

/-- `main.py` line 36: the agent completion marker. -/
def COMPLETION_SENTINEL : String := "[AGENT_DONE]"

/-- The sentinel as a character list. -/
def SENTL : List Char := COMPLETION_SENTINEL.data

/-- `main.py` line 35. -/
def MAX_AGENT_ITERATIONS : Nat := 10

/-- `Main._extract_completion_text` (main.py lines 295-306): empty input is
returned unchanged; otherwise the text is stripped, and if the sentinel occurs
the stripped remainder after its first occurrence is returned, with the
sentinel itself substituted when that remainder is empty. -/
def extract_completion_text (raw_text : String) : String :=
  if raw_text = "" then raw_text
  else
    let text := pyStripL raw_text.data
    match afterFirstSub SENTL text with
    | some rest =>
      let remainder := pyStripL rest
      if remainder = [] then COMPLETION_SENTINEL else ⟨remainder⟩
    | none => ⟨text⟩

/-- `Main._parse_update_request` (main.py lines 110-127). -/
def parse_update_request (message_str : String) : Except String (String × String) :=
  let raw := pyStrip message_str
  let parts := if raw = "" then [] else pySplitMax2 raw.data
  if parts.length < 3 then Except.error "参数不足，请提供人格ID和更新要求。"
  else
    match parts with
    | _ :: pid :: req :: _ =>
      let pid := pyStrip ⟨pid⟩
      let req := pyStrip ⟨req⟩
      if pid = "" then Except.error "人格ID 不能为空，请重新输入。"
      else if req = "" then Except.error "更新要求不能为空，请提供具体说明。"
      else Except.ok (pid, req)
    | _ => Except.error "参数不足，请提供人格ID和更新要求。"

/-! ## Dynamic Python values

The formatters and the update tool receive duck-typed values; `PyVal` models
the dynamic values that can reach them (Python `None`, `str`, `int`, and
`list`/`tuple`, which this code treats identically). -/

inductive PyVal where
  | pnone
  | pstr (s : String)
  | pint (n : Int)
  | plist (xs : List PyVal)

/-- A single-quote character, used by the model of Python `repr` on strings. -/
def sQuote : String := String.singleton (Char.ofNat 39)

mutual
/-- Model of Python `repr` on `PyVal` (element rendering used by `str(list)`). -/
def pyRepr : PyVal → String
  | .pnone => "None"
  | .pstr s => sQuote ++ s ++ sQuote
  | .pint n => toString n
  | .plist xs => "[" ++ String.intercalate ", " (pyReprL xs) ++ "]"
/-- `pyRepr` mapped over a list. -/
def pyReprL : List PyVal → List String
  | [] => []
  | x :: xs => pyRepr x :: pyReprL xs
end

/-- Model of Python `str()`: identity on strings, `repr`-based otherwise. -/
def pyStrV : PyVal → String
  | .pstr s => s
  | v => pyRepr v

/-- Python truthiness for the values `PyVal` models. -/
def pyTruthy : PyVal → Bool
  | .pnone => false
  | .pstr s => !(s = "")
  | .pint n => !(n = 0)
  | .plist xs => !xs.isEmpty

/-- Is this value a Python `str`? -/
def PyVal.isStr : PyVal → Bool
  | .pstr _ => true
  | _ => false

/-- Is this value Python `None`? -/
def PyVal.isNone : PyVal → Bool
  | .pnone => true
  | _ => false

/-- Python iteration over a value: lists iterate their elements, strings their
characters, and other values raise `TypeError`. -/
def pyIter : PyVal → Except String (List PyVal)
  | .plist xs => Except.ok xs
  | .pstr s => Except.ok (s.data.map (fun c => PyVal.pstr (String.singleton c)))
  | _ => Except.error "TypeError: object is not iterable"

/-- Python `sep.join(xs)`: succeeds only when every element is a `str`,
raising `TypeError` otherwise. -/
def pyJoin (sep : String) (xs : List PyVal) : Except String String :=
  if xs.all PyVal.isStr then Except.ok (String.intercalate sep (xs.map pyStrV))
  else Except.error "TypeError: expected str instance"

/-! ## `core/textbuild.py` -/

/-- `_format_begin_dialogs` (textbuild.py lines 4-10): falsy values render the
"none" marker; otherwise the bullet list is built inside a `try`, any
exception (e.g. a non-iterable value) degrading to the "none" marker. -/
def format_begin_dialogs (begin_dialogs : PyVal) : String :=
  if !pyTruthy begin_dialogs then "无"
  else
    match (pyIter begin_dialogs).map
        (fun items => String.intercalate "\n" (items.map (fun d => "  - " ++ pyStrV d))) with
    | Except.ok s => s
    | Except.error _ => "无"

/-- `_format_tools` (textbuild.py lines 13-24): `None` renders the
"all tools by default" marker, an empty list the "none" marker, a non-empty
list is comma-joined inside a `try` whose failure degrades to `str(tools)`,
and any other value renders as `str(tools)`. -/
def format_tools (tools : PyVal) : String :=
  match tools with
  | .pnone => "默认全部"
  | .plist xs =>
    if xs.length = 0 then "无"
    else
      match pyJoin ", " xs with
      | Except.ok s => s
      | Except.error _ => pyStrV (PyVal.plist xs)
  | t => pyStrV t

/-- A duck-typed persona object: each attribute may be missing (`getattr`
defaults apply) or hold an arbitrary dynamic value. -/
structure PyPersona where
  system_prompt : Option PyVal := none
  begin_dialogs : Option PyVal := none
  tools : Option PyVal := none

/-- `build_persona_detail_text` (textbuild.py lines 27-41). -/
def build_persona_detail_text (persona_id : String) (persona : PyPersona) : String :=
  let response_text := "以下是人格 " ++ sQuote ++ persona_id ++ sQuote ++ " 的详细信息：\n"
  let system_prompt := persona.system_prompt.getD (PyVal.pstr "")
  let response_text := response_text ++
    "- 系统提示 (System Prompt):\n---\n" ++ pyStrV system_prompt ++ "\n---\n"
  let dialogs := format_begin_dialogs (persona.begin_dialogs.getD PyVal.pnone)
  let response_text := response_text ++ "- 开场白 (Begin Dialogs):\n" ++ dialogs ++ "\n"
  let tools_text := format_tools (persona.tools.getD PyVal.pnone)
  response_text ++ "- 工具 (Tools): " ++ tools_text

/-! ## `core/tools.py` — the update-detail tool handler -/

/-- The keyword arguments of one `update_persona_details` invocation: each
field is `none` when the key is absent from the arguments, `some v` when the
key is supplied with dynamic value `v` (which may itself be Python `None`). -/
structure UpdateKwargs where
  persona_id : Option PyVal := none
  system_prompt : Option PyVal := none
  begin_dialogs : Option PyVal := none
  tools : Option PyVal := none

/-- `kwargs.get(key)`: the supplied value, or Python `None` if absent. -/
def kwget (o : Option PyVal) : PyVal := o.getD PyVal.pnone

/-- `isinstance(v, list) and all(isinstance(item, str) for item in v)`. -/
def isStrList : PyVal → Bool
  | .plist xs => xs.all PyVal.isStr
  | _ => false

/-- `len` of a list value (only consulted after `isStrList` holds). -/
def bdLen : PyVal → Nat
  | .plist xs => xs.length
  | _ => 0

/-- A stored persona record held by the host persona manager. -/
structure Persona where
  system_prompt : PyVal
  begin_dialogs : PyVal
  tools : PyVal

/-- One call to `persona_manager.update_persona`: `persona_id` is passed
positionally; the remaining keyword arguments are `some v` when the call site
passes them (with `v` possibly Python `None`) and `none` when the keyword is
absent from the call. -/
structure HostUpdateCall where
  persona_id : PyVal
  system_prompt : Option PyVal
  begin_dialogs : Option PyVal
  tools : Option PyVal

/-- The call `tools.py` lines 108-113 makes: every keyword is always passed,
with value `kwargs.get(...)`. -/
def mkUpdateCall (k : UpdateKwargs) : HostUpdateCall :=
  { persona_id := kwget k.persona_id
    system_prompt := some (kwget k.system_prompt)
    begin_dialogs := some (kwget k.begin_dialogs)
    tools := some (kwget k.tools) }

/-- The host persona manager's observable behaviour for one handler run:
what `update_persona` returns (or raises), and what the follow-up
`get_persona` returns (or raises). -/
structure HostBehavior where
  updateResult : Except String (Option Persona)
  getResult : Except String (Option Persona)

/-- The structured payload the handler serializes with `json.dumps`:
`errPayload msg` stands for `{"ok": false, "error": msg}` and
`okPayload pid p` for `{"ok": true, "persona": {...fields of p...}}`. -/
inductive UpdateResult where
  | errPayload (msg : String)
  | okPayload (persona_id : PyVal) (persona : Persona)

/-- `UpdatePersonaDetailsTool._run_handler` (tools.py lines 88-133), returning
the payload together with the list of `update_persona` calls it performed. -/
def runUpdateHandler (k : UpdateKwargs) (h : HostBehavior) :
    UpdateResult × List HostUpdateCall :=
  let begin_dialogs := kwget k.begin_dialogs
  if !begin_dialogs.isNone && !isStrList begin_dialogs then
    (.errPayload "begin_dialogs 必须是字符串列表", [])
  else if !begin_dialogs.isNone && !(bdLen begin_dialogs % 2 = 0) then
    (.errPayload "begin_dialogs 条目数量必须为偶数，且应按用户/助手顺序排列", [])
  else
    let call := mkUpdateCall k
    match h.updateResult with
    | Except.error e => (.errPayload ("更新失败：" ++ e), [call])
    | Except.ok upd =>
      match (match upd with
             | some p => Except.ok (some p)
             | none => h.getResult) with
      | Except.error e => (.errPayload ("更新成功但获取更新后信息失败：" ++ e), [call])
      | Except.ok none =>
        (.errPayload "更新成功但获取更新后信息失败：更新后无法获取人格详情", [call])
      | Except.ok (some p) => (.okPayload (kwget k.persona_id) p, [call])

/-- Modelled from the spec: the host persona manager's `update` "ignores unset
fields" (spec §6); a keyword that is absent, or passed as Python `None`, leaves
the stored field unchanged, while any other supplied value overwrites it.
The persona manager itself is host-framework code, not part of this
repository. -/
def hostFieldUpdate (old : PyVal) (newv : Option PyVal) : PyVal :=
  match newv with
  | none => old
  | some v => if v.isNone then old else v

/-- Modelled from the spec: applying one `update_persona` call to a stored
persona record, field by field, per `hostFieldUpdate`. -/
def hostApplyUpdate (p : Persona) (c : HostUpdateCall) : Persona :=
  { system_prompt := hostFieldUpdate p.system_prompt c.system_prompt
    begin_dialogs := hostFieldUpdate p.begin_dialogs c.begin_dialogs
    tools := hostFieldUpdate p.tools c.tools }

/-! ## `main.py` — the agent conversation loop -/

/-- A tool-argument mapping as the loop sees it (a JSON object of string
entries suffices for every argument shape the claims exercise). -/
def ToolArgs := List (String × String)

/-- `json.dumps(tool_args)` for a dict argument mapping (simplified
serialization; no claim inspects its exact text). -/
def dumpArgs (args : ToolArgs) : String :=
  "\x7b" ++ String.intercalate ", "
    ((args : List (String × String)).map
      (fun kv => "\x22" ++ kv.1 ++ "\x22: \x22" ++ kv.2 ++ "\x22")) ++ "\x7d"

/-- One registered tool as the loop consumes it: a name, and an optional
handler (`tool.handler` may be absent/falsy) which either returns result text
or raises. -/
structure SimTool where
  name : String
  handler : Option (ToolArgs → Except String String)

/-- `tool_set.get_tool(name)`: lookup by exact name. -/
def getTool (ts : List SimTool) (name : String) : Option SimTool :=
  ts.find? (fun t => t.name == name)

/-- A structured tool-call descriptor as recorded in the assistant transcript
entry (`{"id": …, "type": "function", "function": {"name": …,
"arguments": …}}`). -/
structure ToolCallDesc where
  id : String
  ctype : String
  name : String
  arguments : String
deriving DecidableEq

/-- One transcript entry, tagged by role. -/
inductive Message where
  | user (content : String)
  | assistant (content : String) (tool_calls : List ToolCallDesc)
  | tool (tool_call_id : String) (content : String)
deriving DecidableEq

/-- One provider reply (`LLMResponse`): optional tool-call names/args/ids and
the rendered text. `tools_call_ids := none` models the attribute being absent
(ids are then synthesized); `chain_texts` lists the texts of
`result_chain.chain`, `[]` modelling a falsy/absent chain; `completion_text :=
none` models the attribute being absent. -/
structure LLMResponse where
  tools_call_name : List String := []
  tools_call_args : List ToolArgs := []
  tools_call_ids : Option (List String) := none
  chain_texts : List String := []
  completion_text : Option String := none

instance : Inhabited LLMResponse := ⟨{}⟩

/-- The loop's tool-call test (main.py lines 201-204): both attribute values
truthy. -/
def isToolCallResp (r : LLMResponse) : Bool :=
  !r.tools_call_name.isEmpty && !r.tools_call_args.isEmpty

/-- `tool_call_ids` (main.py lines 207-211): the response's ids if the
attribute exists, else `name:index` synthesized per tool-call name. -/
def toolCallIdsOf (r : LLMResponse) : List String :=
  match r.tools_call_ids with
  | some ids => ids
  | none => r.tools_call_name.mapIdx (fun i name => name ++ ":" ++ toString i)

/-- `zip(names, args, ids)` (truncating to the shortest list). -/
def zip3 {α β γ : Type} (as : List α) (bs : List β) (cs : List γ) :
    List (α × β × γ) :=
  ((as.zip bs).zip cs).map (fun p => (p.1.1, p.1.2, p.2))

/-- Dispatch of one tool call (main.py lines 218-240): a found tool with a
handler yields the handler's text (or the stringified exception tagged
`工具执行失败`); a missing tool, or one without a handler, yields a
`未找到工具` result — always a tool-role entry with the same call id. -/
def dispatchToolCall (ts : List SimTool) (name : String) (args : ToolArgs)
    (id : String) : Message :=
  match getTool ts name with
  | some t =>
    match t.handler with
    | some h =>
      match h args with
      | Except.ok result => Message.tool id result
      | Except.error e => Message.tool id ("工具执行失败: " ++ e)
    | none => Message.tool id ("未找到工具: " ++ name)
  | none => Message.tool id ("未找到工具: " ++ name)

/-- `assistant_content` (main.py lines 242-246): the first chain text when
non-blank, else the generic `调用工具` marker. -/
def assistantContentOf (r : LLMResponse) : String :=
  match r.chain_texts with
  | [] => "调用工具"
  | t :: _ => if pyStrip t = "" then "调用工具" else t

/-- The assistant entry plus the tool-result entries appended for one
tool-calling turn (main.py lines 206-268). -/
def assistantBlock (ts : List SimTool) (r : LLMResponse) : List Message :=
  let triples := zip3 r.tools_call_name r.tools_call_args (toolCallIdsOf r)
  Message.assistant (assistantContentOf r)
      (triples.map (fun nai =>
        { id := nai.2.2, ctype := "function", name := nai.1
          arguments := dumpArgs nai.2.1 }))
    :: triples.map (fun nai => dispatchToolCall ts nai.1 nai.2.1 nai.2.2)

/-- `final_text` for a non-tool-calling turn (main.py lines 272-274): the
first chain text if the chain is non-empty, else `completion_text` (empty when
the attribute is absent). -/
def finalTextOf (r : LLMResponse) : String :=
  match r.chain_texts with
  | [] => r.completion_text.getD ""
  | t :: _ => t

/-- The normally-terminated outcome of the loop: the accumulated transcript
and the final text. -/
structure AgentOutcomeOk where
  messages : List Message
  final_text : String
deriving DecidableEq

/-- One full run of the loop: how many provider invocations it performed, and
its result — `Except.error` models the `AgentExecutionError` re-raise of a
provider exception (main.py lines 280-281). -/
structure AgentRun where
  calls : Nat
  result : Except String AgentOutcomeOk

/-- The `for _ in range(max_iterations)` loop of `_run_agent_conversation`
(main.py lines 188-279), with the provider modelled as an oracle from the
invocation index to a response or a raised exception. `fuel` is the number of
remaining iterations, `k` the number of provider invocations performed so
far; fuel exhaustion is the `for...else` branch yielding the iteration-limit
text. -/
def runAgentIter (ts : List SimTool) (prov : Nat → Except String LLMResponse) :
    Nat → Nat → List Message → String → AgentRun
  | 0, k, messages, _ => ⟨k, Except.ok ⟨messages, "工具调用超过最大次数限制"⟩⟩
  | fuel + 1, k, messages, current_prompt =>
    match prov k with
    | Except.error e => ⟨k + 1, Except.error e⟩
    | Except.ok response =>
      let messages := messages ++ [Message.user current_prompt]
      if isToolCallResp response then
        runAgentIter ts prov fuel (k + 1) (messages ++ assistantBlock ts response) " "
      else ⟨k + 1, Except.ok ⟨messages, finalTextOf response⟩⟩

/-- `Main._run_agent_conversation` (main.py lines 172-283): run the bounded
loop from an empty transcript and the initial user prompt, then post-process
the final text with `_extract_completion_text`. -/
def run_agent_conversation (ts : List SimTool)
    (prov : Nat → Except String LLMResponse) (user_prompt : String) : AgentRun :=
  let run := runAgentIter ts prov MAX_AGENT_ITERATIONS 0 [] user_prompt
  ⟨run.calls, run.result.map
    (fun o => ⟨o.messages, extract_completion_text o.final_text⟩)⟩

/-- The prompt sent on segment iteration `i` when the segment started with
prompt `u`: the tool-call placeholder `" "` after the first iteration
(main.py lines 34 and 269). -/
def pAt (u : String) (i : Nat) : String := if i = 0 then u else " "

/-- The transcript block of one tool-calling turn: its user entry followed by
the assistant entry and the tool results. -/
def turnBlock (ts : List SimTool) (p : String) (r : LLMResponse) : List Message :=
  Message.user p :: assistantBlock ts r

/-- The transcript contributed by `m` consecutive tool-calling turns starting
at invocation `k`, the first sent with prompt `u`. -/
def segWith (ts : List SimTool) (rs : Nat → LLMResponse) (u : String)
    (k m : Nat) : List Message :=
  ((List.range m).map (fun i => turnBlock ts (pAt u i) (rs (k + i)))).flatten

/-! ## `main.py` — the command handler -/

/-- The host collaborators `persona_self_update` consults after parsing: the
provider-resolution outcome, and the agent run the resolved provider would
produce. -/
structure CmdEnv where
  provider_resolution : Except String Unit
  agent_run : AgentRun

/-- `Main.persona_self_update` (main.py lines 64-108), observed as the list of
emitted chat replies paired with the number of provider (LLM) invocations
performed. Parse and resolution failures reply immediately with zero provider
invocations; otherwise the interim acknowledgement is emitted, the agent loop
runs, and its summary or execution error is emitted. (The per-command persona
cache reset of line 76 has no observable effect here.) -/
def persona_self_update_model (message_str : String) (env : CmdEnv) :
    List String × Nat :=
  match parse_update_request message_str with
  | Except.error e => ([e], 0)
  | Except.ok _ =>
    match env.provider_resolution with
    | Except.error e => (["获取服务提供商失败: " ++ e], 0)
    | Except.ok _ =>
      match env.agent_run.result with
      | Except.ok o => (["🔄 分析中...", "✅ 更新完成\n" ++ o.final_text], env.agent_run.calls)
      | Except.error e => (["🔄 分析中...", "❌ 更新失败: " ++ e], env.agent_run.calls)

/-! ## Concrete inputs used by witnesses and counterexamples -/

/-- A stored persona used as concrete host state. -/
def personaA : Persona :=
  ⟨PyVal.pstr "old_sys", PyVal.plist [PyVal.pstr "u", PyVal.pstr "a"], PyVal.pnone⟩

/-- A host whose `update_persona` succeeds returning the updated record. -/
def hostOk : HostBehavior := ⟨Except.ok (some personaA), Except.ok none⟩

/-- Arguments supplying only `persona_id` (all optional fields omitted). -/
def kwOmitAll : UpdateKwargs := { persona_id := some (PyVal.pstr "p") }

/-- Arguments supplying `begin_dialogs` explicitly as Python `None` (JSON
`null`). -/
def kwNullBd : UpdateKwargs :=
  { persona_id := some (PyVal.pstr "p"), begin_dialogs := some PyVal.pnone }

/-- Arguments supplying an odd-length `begin_dialogs`. -/
def kwOddBd : UpdateKwargs :=
  { persona_id := some (PyVal.pstr "p"), begin_dialogs := some (PyVal.plist [PyVal.pstr "x"]) }

/-- A provider response carrying one tool call. -/
def toolResp : LLMResponse :=
  { tools_call_name := ["t"], tools_call_args := [[("a", "b")]] }

/-- A provider response carrying no tool calls. -/
def plainResp : LLMResponse := { completion_text := some "done" }

/-- A response sequence of ten tool-calling turns followed by a plain turn
(eleven turns in total). -/
def cexSeq : Nat → LLMResponse := fun i => if i < 10 then toolResp else plainResp

/-- A response sequence of one tool-calling turn then a plain turn. -/
def twoTurnSeq : Nat → LLMResponse := fun i => if i = 0 then toolResp else plainResp

/-- A tool whose handler raises. -/
def failTool : SimTool := ⟨"fail_tool", some (fun _ => Except.error "boom")⟩

/-- A tool whose handler succeeds. -/
def okTool : SimTool := ⟨"ok_tool", some (fun _ => Except.ok "fine")⟩

/-- A command environment with a resolvable provider and an agent run that
fails. -/
def envA : CmdEnv := ⟨Except.ok (), ⟨0, Except.error "x"⟩⟩

/-- A persona object with a non-iterable `begin_dialogs` and a non-string
tool entry. -/
def badPersona : PyPersona :=
  { begin_dialogs := some (PyVal.pint 3), tools := some (PyVal.plist [PyVal.pnone]) }

/-! ## Lemmas about stripping and substring search -/

theorem sentl_cons : SENTL = '[' :: "AGENT_DONE]".data := rfl

theorem sentl_rev : SENTL.reverse = "]ENOD_TNEGA[".data := by decide

theorem ldw_cons_not_ws (c : Char) (h : isWs c = false) (l : List Char) :
    List.dropWhile isWs (c :: l) = c :: l := by
  simp [List.dropWhile_cons, h]

theorem ldw_sent_append (y : List Char) :
    List.dropWhile isWs (SENTL ++ y) = SENTL ++ y := by
  rw [sentl_cons, List.cons_append]
  exact ldw_cons_not_ws _ (by decide) _

theorem ldw_sentrev_append (y : List Char) :
    List.dropWhile isWs (SENTL.reverse ++ y) = SENTL.reverse ++ y := by
  rw [sentl_rev, show ("]ENOD_TNEGA[".data) = ']' :: "ENOD_TNEGA[".data from rfl,
    List.cons_append]
  exact ldw_cons_not_ws _ (by decide) _

theorem dropWhile_all_append (w y : List Char) (hw : ∀ c ∈ w, isWs c = true) :
    List.dropWhile isWs (w ++ y) = List.dropWhile isWs y := by
  induction w with
  | nil => rfl
  | cons c cs ih =>
    rw [List.cons_append, List.dropWhile_cons, if_pos (hw c (List.mem_cons_self c cs))]
    exact ih (fun d hd => hw d (List.mem_cons_of_mem _ hd))

theorem exists_rdw_decomp (l : List Char) :
    ∃ w, l = rdw l ++ w ∧ ∀ c ∈ w, isWs c = true := by
  refine ⟨(l.reverse.takeWhile isWs).reverse, ?_, ?_⟩
  · calc l = l.reverse.reverse := (List.reverse_reverse l).symm
    _ = (l.reverse.takeWhile isWs ++ l.reverse.dropWhile isWs).reverse := by
        rw [List.takeWhile_append_dropWhile]
    _ = (l.reverse.dropWhile isWs).reverse ++ (l.reverse.takeWhile isWs).reverse := by
        rw [List.reverse_append]
    _ = rdw l ++ (l.reverse.takeWhile isWs).reverse := rfl
  · intro c hc
    rw [List.mem_reverse] at hc
    exact List.mem_takeWhile_imp hc

theorem rdw_append_ws (x w : List Char) (hw : ∀ c ∈ w, isWs c = true) :
    rdw (x ++ w) = rdw x := by
  unfold rdw
  rw [List.reverse_append,
    dropWhile_all_append _ _ (fun c hc => hw c (List.mem_reverse.mp hc))]

theorem dropWhile_head_false {p : Char → Bool} :
    ∀ {l c cs}, List.dropWhile p l = c :: cs → p c = false := by
  intro l
  induction l with
  | nil => intro c cs h; simp [List.dropWhile] at h
  | cons a as ih =>
    intro c cs h
    rw [List.dropWhile_cons] at h
    by_cases hp : p a = true
    · rw [if_pos hp] at h; exact ih h
    · rw [if_neg hp] at h
      cases h
      exact Bool.eq_false_iff.mpr hp

theorem rdw_nil_of_ws (l : List Char) (h : ∀ c ∈ rdw l, isWs c = true) :
    rdw l = [] := by
  unfold rdw at h ⊢
  cases hd : List.dropWhile isWs l.reverse with
  | nil => rfl
  | cons c cs =>
    have hc : isWs c = false := dropWhile_head_false hd
    have hmem : c ∈ (List.dropWhile isWs l.reverse).reverse := by
      rw [hd]; simp
    exact absurd (h c hmem) (by simp [hc])

theorem pyStripL_all_ws (w : List Char) (hw : ∀ c ∈ w, isWs c = true) :
    pyStripL w = [] := by
  unfold pyStripL ldw
  rw [List.dropWhile_eq_nil_iff.mpr hw]
  rfl

theorem pyStripL_rdw (b : List Char) : pyStripL (rdw b) = pyStripL b := by
  obtain ⟨w, hb, hw⟩ := exists_rdw_decomp b
  by_cases hm : ldw (rdw b) = []
  · have hall : ∀ c ∈ rdw b, isWs c = true := List.dropWhile_eq_nil_iff.mp hm
    have hmnil : rdw b = [] := rdw_nil_of_ws b hall
    rw [hmnil] at hb ⊢
    simp only [List.nil_append] at hb
    rw [hb, pyStripL_all_ws w hw]
    rfl
  · conv_rhs => rw [hb]
    unfold pyStripL
    have h1 : ldw (rdw b ++ w) = ldw (rdw b) ++ w := by
      unfold ldw
      rw [List.dropWhile_append,
        if_neg (by simp only [List.isEmpty_eq_true]; exact hm)]
    rw [h1, rdw_append_ws _ _ hw]

theorem strip_decomp (a b : List Char) :
    pyStripL (a ++ (SENTL ++ b)) = ldw a ++ (SENTL ++ rdw b) := by
  unfold pyStripL
  have h1 : ldw (a ++ (SENTL ++ b)) = ldw a ++ (SENTL ++ b) := by
    unfold ldw
    rw [List.dropWhile_append]
    by_cases he : (List.dropWhile isWs a).isEmpty = true
    · rw [if_pos he, ldw_sent_append]
      rw [List.isEmpty_eq_true] at he
      rw [he, List.nil_append]
    · rw [if_neg he]
  rw [h1]
  generalize ldw a = L
  unfold rdw
  rw [List.reverse_append, List.reverse_append, List.append_assoc,
    List.dropWhile_append]
  by_cases he : (List.dropWhile isWs b.reverse).isEmpty = true
  · rw [if_pos he, ldw_sentrev_append]
    rw [List.isEmpty_eq_true] at he
    rw [he]
    simp [List.reverse_append]
  · rw [if_neg he]
    simp [List.reverse_append, List.append_assoc]

theorem chPre_append_self (p r : List Char) : chPre p (p ++ r) = true := by
  induction p with
  | nil => rfl
  | cons c cs ih => simp [chPre, ih]

theorem afterFirst_self_append (pat : List Char) (hp : pat ≠ []) (b : List Char) :
    afterFirstSub pat (pat ++ b) = some b := by
  cases pat with
  | nil => exact absurd rfl hp
  | cons p ps =>
    rw [List.cons_append]
    have hpre : chPre (p :: ps) (p :: (ps ++ b)) = true := by
      rw [← List.cons_append]
      exact chPre_append_self _ _
    simp only [afterFirstSub, hpre, if_true]
    rw [List.length_cons, List.drop_succ_cons, List.drop_left]

theorem afterFirst_junction (a : List Char) (ha : ∀ c ∈ a, c ≠ '[') (b : List Char) :
    afterFirstSub SENTL (a ++ (SENTL ++ b)) = some b := by
  induction a with
  | nil =>
    rw [List.nil_append]
    exact afterFirst_self_append SENTL (by decide) b
  | cons c cs ih =>
    rw [List.cons_append]
    have hc : ('[' == c) = false :=
      beq_eq_false_iff_ne.mpr (Ne.symm (ha c (List.mem_cons_self _ _)))
    have hpre : chPre SENTL (c :: (cs ++ (SENTL ++ b))) = false := by
      rw [sentl_cons]
      simp [chPre, hc]
    simp only [afterFirstSub, hpre, Bool.false_eq_true, if_false]
    exact ih (fun d hd => ha d (List.mem_cons_of_mem _ hd))

theorem chPre_extend (pat : List Char) :
    ∀ (s r : List Char), chPre pat s = true → chPre pat (s ++ r) = true := by
  induction pat with
  | nil => intro s r _; rfl
  | cons p ps ih =>
    intro s r h
    cases s with
    | nil => simp [chPre] at h
    | cons c cs =>
      rw [List.cons_append]
      simp only [chPre, Bool.and_eq_true] at h ⊢
      exact ⟨h.1, ih cs r h.2⟩

theorem hasSub_append_left (pat ys : List Char) (h : hasSub pat ys = true) :
    ∀ xs, hasSub pat (xs ++ ys) = true := by
  intro xs
  induction xs with
  | nil => simpa using h
  | cons x xs ih =>
    rw [List.cons_append]
    by_cases hc : chPre pat (x :: (xs ++ ys)) = true
    · simp [hasSub, afterFirstSub, hc]
    · simp only [hasSub, afterFirstSub, hc, Bool.false_eq_true, if_false]
      exact ih

theorem hasSub_append_right (pat : List Char) :
    ∀ (ys r : List Char), hasSub pat ys = true → hasSub pat (ys ++ r) = true := by
  intro ys
  induction ys with
  | nil =>
    intro r h
    simp only [hasSub, afterFirstSub] at h
    by_cases hp : pat.isEmpty = true
    · rw [List.isEmpty_eq_true] at hp
      subst hp
      cases r <;> simp [hasSub, afterFirstSub, chPre]
    · rw [if_neg hp] at h
      simp at h
  | cons y ys ih =>
    intro r h
    rw [List.cons_append]
    by_cases hc : chPre pat (y :: (ys ++ r)) = true
    · simp [hasSub, afterFirstSub, hc]
    · have hcs : chPre pat (y :: ys) = false := by
        by_contra hx
        rw [Bool.not_eq_false] at hx
        have := chPre_extend pat (y :: ys) r hx
        rw [List.cons_append] at this
        exact hc this
      simp only [hasSub, afterFirstSub, hc, hcs, Bool.false_eq_true, if_false] at h ⊢
      exact ih r h

theorem hasSub_strip (pat l : List Char) (h : hasSub pat (pyStripL l) = true) :
    hasSub pat l = true := by
  obtain ⟨w, hw, _⟩ := exists_rdw_decomp (ldw l)
  have h2 : hasSub pat (ldw l) = true := by
    rw [hw]
    exact hasSub_append_right _ _ _ h
  have h3 : l = l.takeWhile isWs ++ ldw l :=
    (List.takeWhile_append_dropWhile _ _).symm
  have h4 := hasSub_append_left pat (ldw l) h2 (l.takeWhile isWs)
  rw [← h3] at h4
  exact h4

theorem extract_decomp (a b : String) (ha : ∀ c ∈ a.data, c ≠ '[') :
    extract_completion_text (a ++ COMPLETION_SENTINEL ++ b) =
      if pyStrip b = "" then COMPLETION_SENTINEL else pyStrip b := by
  have hdata : (a ++ COMPLETION_SENTINEL ++ b).data = a.data ++ (SENTL ++ b.data) := by
    rw [String.data_append, String.data_append, List.append_assoc]
    rfl
  have hne : ¬ (a ++ COMPLETION_SENTINEL ++ b) = "" := by
    intro h
    have hd : (a ++ COMPLETION_SENTINEL ++ b).data = [] := by rw [h]
    rw [hdata] at hd
    have := List.append_eq_nil.mp hd
    have := List.append_eq_nil.mp this.2
    exact absurd this.1 (by decide)
  simp only [extract_completion_text, if_neg hne]
  rw [hdata, strip_decomp, afterFirst_junction (ldw a.data)
    (fun c hc => ha c (List.Sublist.mem hc (List.dropWhile_sublist _)))]
  dsimp only
  rw [pyStripL_rdw]
  by_cases hb : pyStripL b.data = []
  · rw [if_pos hb, if_pos ?_]
    unfold pyStrip
    rw [hb]
  · rw [if_neg hb, if_neg ?_]
    · rfl
    · intro h
      apply hb
      have := congrArg String.data h
      simpa [pyStrip] using this

/-! ## Lemmas about the agent loop -/

theorem pAt_zero (u : String) : pAt u 0 = u := rfl

theorem pAt_succ (u : String) (m : Nat) : pAt u (m + 1) = " " := by simp [pAt]

theorem pAt_sp (i : Nat) : pAt " " i = " " := by cases i <;> simp [pAt]

theorem segWith_zero (ts : List SimTool) (rs : Nat → LLMResponse) (u : String)
    (k : Nat) : segWith ts rs u k 0 = [] := rfl

theorem segWith_succ (ts : List SimTool) (rs : Nat → LLMResponse) (u : String)
    (k m : Nat) :
    segWith ts rs u k (m + 1) =
      turnBlock ts u (rs k) ++ segWith ts rs " " (k + 1) m := by
  unfold segWith
  rw [List.range_succ_eq_map, List.map_cons, List.flatten_cons, List.map_map]
  have h1 : turnBlock ts (pAt u 0) (rs (k + 0)) = turnBlock ts u (rs k) := by
    rw [pAt_zero, Nat.add_zero]
  rw [h1]
  congr 1
  exact congrArg List.flatten (List.map_congr_left (fun i _ => by
    simp only [Function.comp_apply]
    rw [pAt_succ, pAt_sp, show k + (i + 1) = k + 1 + i by omega]))

theorem loop_advance (ts : List SimTool) (prov : Nat → Except String LLMResponse)
    (rs : Nat → LLMResponse) :
    ∀ (m fuel k : Nat) (msgs : List Message) (prompt : String), m ≤ fuel →
    (∀ i, i < m →
      prov (k + i) = Except.ok (rs (k + i)) ∧ isToolCallResp (rs (k + i)) = true) →
    runAgentIter ts prov fuel k msgs prompt =
      runAgentIter ts prov (fuel - m) (k + m)
        (msgs ++ segWith ts rs prompt k m) (pAt prompt m) := by
  intro m
  induction m with
  | zero =>
    intro fuel k msgs prompt _ _
    simp [segWith_zero, pAt_zero]
  | succ m ih =>
    intro fuel k msgs prompt hm h
    cases fuel with
    | zero => omega
    | succ f =>
      have h0 := h 0 (Nat.succ_pos m)
      rw [Nat.add_zero] at h0
      simp only [runAgentIter]
      rw [h0.1]
      dsimp only
      rw [if_pos h0.2]
      rw [ih f (k + 1) ((msgs ++ [Message.user prompt]) ++ assistantBlock ts (rs k)) " "
        (by omega)
        (fun i hi => by
          have := h (i + 1) (by omega)
          rwa [show k + (i + 1) = k + 1 + i by omega] at this)]
      rw [segWith_succ]
      simp only [turnBlock, Nat.succ_sub_succ, pAt_succ, pAt_sp]
      rw [show k + (m + 1) = k + 1 + m by omega]
      congr 1
      simp [List.append_assoc]

theorem runAgentIter_calls_le (ts : List SimTool)
    (prov : Nat → Except String LLMResponse) :
    ∀ (fuel k : Nat) (msgs : List Message) (prompt : String),
    (runAgentIter ts prov fuel k msgs prompt).calls ≤ k + fuel := by
  intro fuel
  induction fuel with
  | zero => intro k msgs prompt; simp [runAgentIter]
  | succ f ih =>
    intro k msgs prompt
    simp only [runAgentIter]
    cases hp : prov k with
    | error e => dsimp only; omega
    | ok r =>
      dsimp only
      by_cases ht : isToolCallResp r = true
      · rw [if_pos ht]
        calc (runAgentIter ts prov f (k + 1) _ " ").calls ≤ (k + 1) + f := ih _ _ _
        _ ≤ k + (f + 1) := by omega
      · rw [if_neg ht]
        dsimp only
        omega

theorem runAgentIter_limit (ts : List SimTool)
    (prov : Nat → Except String LLMResponse) :
    ∀ (fuel k : Nat) (msgs : List Message) (prompt : String),
    (∀ i, i < fuel → ∃ r, prov (k + i) = Except.ok r ∧ isToolCallResp r = true) →
    ∃ msgs2, runAgentIter ts prov fuel k msgs prompt =
      ⟨k + fuel, Except.ok ⟨msgs2, "工具调用超过最大次数限制"⟩⟩ := by
  intro fuel
  induction fuel with
  | zero =>
    intro k msgs prompt _
    exact ⟨msgs, by simp [runAgentIter]⟩
  | succ f ih =>
    intro k msgs prompt h
    obtain ⟨r, hk, ht⟩ := h 0 (by omega)
    rw [Nat.add_zero] at hk
    simp only [runAgentIter]
    rw [hk]
    dsimp only
    rw [if_pos ht]
    obtain ⟨m2, hm2⟩ := ih (k + 1) ((msgs ++ [Message.user prompt]) ++ assistantBlock ts r) " "
      (fun i hi => by
        have := h (i + 1) (by omega)
        rwa [show k + (i + 1) = k + 1 + i by omega] at this)
    exact ⟨m2, by rw [hm2]; congr 1; omega⟩

theorem extract_limit :
    extract_completion_text "工具调用超过最大次数限制" = "工具调用超过最大次数限制" := by
  decide

/-! ## Claim theorems -/

/-- C8: the tools formatter renders the "all tools by default" marker when
`tools` is `None`, the "none" marker when it is an empty sequence, and the
comma-joined string when it is a non-empty sequence of strings. -/
theorem c8_format_tools :
    format_tools PyVal.pnone = "默认全部" ∧
    format_tools (PyVal.plist []) = "无" ∧
    ∀ ss : List String, ss ≠ [] →
      format_tools (PyVal.plist (ss.map PyVal.pstr)) = String.intercalate ", " ss := by
  refine ⟨rfl, rfl, ?_⟩
  intro ss hss
  unfold format_tools
  dsimp only
  rw [if_neg (by simp [hss])]
  have hall : (ss.map PyVal.pstr).all PyVal.isStr = true := by
    rw [List.all_eq_true]
    intro x hx
    obtain ⟨s, _, rfl⟩ := List.mem_map.mp hx
    rfl
  unfold pyJoin
  rw [if_pos hall]
  dsimp only
  congr 1
  rw [List.map_map]
  have hid : pyStrV ∘ PyVal.pstr = id := by funext s; rfl
  rw [hid, List.map_id]

/-- C8 witness: `["a", "b"]` renders as `"a, b"`. -/
theorem c8_format_tools_witness :
    format_tools (PyVal.plist [PyVal.pstr "a", PyVal.pstr "b"]) = "a, b" :=
  (c8_format_tools.2.2 ["a", "b"] (by simp)).trans (by decide)

/-- C9: the persona formatters return a string for every input object
(missing attributes included) and never raise — a failing iteration of
`begin_dialogs` degrades to the "none" marker, and a failing join of a
non-empty tools list degrades to the raw string representation. -/
theorem c9_formatter_total :
    (∀ (pid : String) (p : PyPersona), ∃ s : String, build_persona_detail_text pid p = s) ∧
    (∀ (bd : PyVal) (e : String), pyIter bd = Except.error e →
      format_begin_dialogs bd = "无") ∧
    (∀ (xs : List PyVal) (e : String), xs ≠ [] → pyJoin ", " xs = Except.error e →
      format_tools (PyVal.plist xs) = pyStrV (PyVal.plist xs)) := by
  refine ⟨fun pid p => ⟨_, rfl⟩, ?_, ?_⟩
  · intro bd e he
    unfold format_begin_dialogs
    by_cases ht : pyTruthy bd = true
    · rw [if_neg (by simp [ht]), he]
      rfl
    · rw [if_pos (by simp [Bool.eq_false_iff.mpr ht])]
  · intro xs e hne he
    unfold format_tools
    dsimp only
    rw [if_neg (by simp [hne]), he]

/-- C9 witness: a non-iterable `begin_dialogs` and a non-string tool entry
both degrade to their fallbacks, and the full formatter still returns a
string on the corresponding persona object. -/
theorem c9_formatter_total_witness :
    format_begin_dialogs (PyVal.pint 3) = "无" ∧
    format_tools (PyVal.plist [PyVal.pnone]) = pyStrV (PyVal.plist [PyVal.pnone]) ∧
    ∃ s : String, build_persona_detail_text "x" badPersona = s :=
  ⟨c9_formatter_total.2.1 (PyVal.pint 3) _ rfl,
   c9_formatter_total.2.2 [PyVal.pnone] _ (by simp) rfl,
   c9_formatter_total.1 "x" badPersona⟩

/-- C10: when the trimmed final text ends exactly at the sentinel (nothing but
whitespace follows it), the extracted summary is the sentinel string itself,
not the empty string; and empty input is returned unchanged. -/
theorem c10_sentinel_tail :
    (∀ a w : String, (∀ c ∈ a.data, c ≠ '[') → (∀ c ∈ w.data, isWs c = true) →
      extract_completion_text (a ++ COMPLETION_SENTINEL ++ w) = COMPLETION_SENTINEL) ∧
    extract_completion_text "" = "" := by
  refine ⟨?_, rfl⟩
  intro a w ha hw
  rw [extract_decomp a w ha, if_pos ?_]
  unfold pyStrip
  rw [pyStripL_all_ws w.data hw]

/-- C10 witness: `" [AGENT_DONE] "` extracts to the sentinel itself, and the
empty string is returned unchanged. -/
theorem c10_sentinel_tail_witness :
    extract_completion_text (" " ++ COMPLETION_SENTINEL ++ " ") = COMPLETION_SENTINEL ∧
    extract_completion_text "" = "" :=
  ⟨c10_sentinel_tail.1 " " " " (by decide) (by decide), c10_sentinel_tail.2⟩

/-- C4 as stated fails: for the final text `"[AGENT_DONE]"` the sentinel is
present and the text following it trims to the empty string, so the claim
predicts an empty summary, but the code returns the sentinel itself. -/
theorem c4_counterexample :
    extract_completion_text "[AGENT_DONE]" = "[AGENT_DONE]" ∧
    ("[AGENT_DONE]" : String) ≠ "" := by
  exact ⟨by decide, by decide⟩

/-- C4 amended: when the sentinel occurs and the text following its first
occurrence trims to a non-empty string, the summary is exactly that trimmed
remainder; when the remainder trims to empty, the summary is the sentinel
itself; and text without the sentinel yields the full trimmed text. -/
theorem c4_extract_summary :
    (∀ a b : String, (∀ c ∈ a.data, c ≠ '[') → pyStrip b ≠ "" →
      extract_completion_text (a ++ COMPLETION_SENTINEL ++ b) = pyStrip b) ∧
    (∀ a b : String, (∀ c ∈ a.data, c ≠ '[') → pyStrip b = "" →
      extract_completion_text (a ++ COMPLETION_SENTINEL ++ b) = COMPLETION_SENTINEL) ∧
    (∀ raw : String, hasSub SENTL raw.data = false →
      extract_completion_text raw = pyStrip raw) := by
  refine ⟨?_, ?_, ?_⟩
  · intro a b ha hb
    rw [extract_decomp a b ha, if_neg hb]
  · intro a b ha hb
    rw [extract_decomp a b ha, if_pos hb]
  · intro raw h
    by_cases hr : raw = ""
    · subst hr; rfl
    · simp only [extract_completion_text, if_neg hr]
      have h2 : afterFirstSub SENTL (pyStripL raw.data) = none := by
        cases hx : afterFirstSub SENTL (pyStripL raw.data) with
        | none => rfl
        | some r =>
          have hs : hasSub SENTL (pyStripL raw.data) = true := by
            simp [hasSub, hx]
          have := hasSub_strip _ _ hs
          rw [h] at this
          cases this
      rw [h2]
      rfl

/-- C4 witness: `"note [AGENT_DONE] hi "` extracts to `"hi"`, and text
without the sentinel extracts to its trimmed self. -/
theorem c4_extract_summary_witness :
    extract_completion_text ("note " ++ COMPLETION_SENTINEL ++ " hi ") = pyStrip " hi " ∧
    extract_completion_text " no marker " = pyStrip " no marker " :=
  ⟨c4_extract_summary.1 "note " " hi " (by decide) (by decide),
   c4_extract_summary.2.2 " no marker " (by decide)⟩

/-- C7: a command whose text splits into fewer than three whitespace tokens is
answered with an immediate validation message and performs no provider or LLM
(or tool) invocation; the same holds for every parse validation failure,
including an empty extracted persona id or requirement. -/
theorem c7_parse_validation :
    ∀ (msg : String) (env : CmdEnv),
    ((pySplitMax2 (pyStrip msg).data).length < 3 →
      persona_self_update_model msg env = (["参数不足，请提供人格ID和更新要求。"], 0)) ∧
    (∀ e, parse_update_request msg = Except.error e →
      persona_self_update_model msg env = ([e], 0)) := by
  intro msg env
  have hgen : ∀ e, parse_update_request msg = Except.error e →
      persona_self_update_model msg env = ([e], 0) := by
    intro e he
    unfold persona_self_update_model
    rw [he]
  refine ⟨fun hlen => hgen _ ?_, hgen⟩
  unfold parse_update_request
  dsimp only
  by_cases hr : pyStrip msg = ""
  · simp [hr]
  · rw [if_neg hr, if_pos hlen]

/-- C7 witness: the two-token command `"人格更新 伯特"` is rejected with the
missing-arguments message and zero provider invocations. -/
theorem c7_parse_validation_witness :
    persona_self_update_model "人格更新 伯特" envA =
      (["参数不足，请提供人格ID和更新要求。"], 0) :=
  (c7_parse_validation "人格更新 伯特" envA).1 (by decide)

/-- C2 as stated fails: for the eleven-turn sequence whose first ten turns
carry tool calls and whose eleventh does not, the loop performs ten provider
invocations (the iteration cap), not eleven. -/
theorem c2_counterexample :
    ((List.range 10).all (fun i => isToolCallResp (cexSeq i)) = true) ∧
    isToolCallResp (cexSeq 10) = false ∧
    (run_agent_conversation [] (fun i => Except.ok (cexSeq i)) "开始执行。").calls = 10 ∧
    (run_agent_conversation [] (fun i => Except.ok (cexSeq i)) "开始执行。").calls ≠ 11 := by
  obtain ⟨m2, hm⟩ := runAgentIter_limit [] (fun i => Except.ok (cexSeq i))
    MAX_AGENT_ITERATIONS 0 [] "开始执行。"
    (fun i hi => ⟨cexSeq (0 + i), rfl, by
      have h0 : 0 + i = i := by omega
      have hi10 : i < 10 := hi
      rw [h0]
      simp [cexSeq, hi10, toolResp, isToolCallResp]⟩)
  have hcalls :
      (run_agent_conversation [] (fun i => Except.ok (cexSeq i)) "开始执行。").calls = 10 := by
    unfold run_agent_conversation
    dsimp only
    rw [hm]
    rfl
  exact ⟨by decide, by decide, hcalls, by rw [hcalls]; omega⟩

/-- C2 amended: for every response sequence whose first N−1 turns carry tool
calls and whose N-th carries none, with N at most the iteration cap of 10, the
loop terminates after exactly N provider invocations and the transcript is the
concatenation, per tool-calling turn, of one user entry, one assistant entry
carrying the tool-call descriptors, and one tool-result entry per tool call,
followed by the final turn's user entry — the prompt being the single-space
placeholder on every turn after the first. -/
theorem c2_loop_turns :
    ∀ (ts : List SimTool) (rs : Nat → LLMResponse) (u : String) (N : Nat),
    0 < N → N ≤ MAX_AGENT_ITERATIONS →
    (∀ i, i + 1 < N → isToolCallResp (rs i) = true) →
    isToolCallResp (rs (N - 1)) = false →
    run_agent_conversation ts (fun i => Except.ok (rs i)) u =
      ⟨N, Except.ok ⟨segWith ts rs u 0 (N - 1) ++ [Message.user (pAt u (N - 1))],
        extract_completion_text (finalTextOf (rs (N - 1)))⟩⟩ := by
  intro ts rs u N hN hNmax htool hlast
  unfold run_agent_conversation
  rw [loop_advance ts _ rs (N - 1) MAX_AGENT_ITERATIONS 0 [] u (by omega)
    (fun i hi => ⟨rfl, by
      have h0 : 0 + i = i := by omega
      rw [h0]
      exact htool i (by omega)⟩)]
  have hfuel : MAX_AGENT_ITERATIONS - (N - 1) = (MAX_AGENT_ITERATIONS - N) + 1 := by
    omega
  rw [hfuel]
  simp only [runAgentIter]
  rw [show (0 + (N - 1)) = N - 1 by omega]
  rw [if_neg (by simp [hlast])]
  have hN1 : N - 1 + 1 = N := by omega
  simp [Except.map, hN1]

/-- C2 witness: one tool-calling turn followed by a plain turn terminates
after exactly two provider invocations with the predicted transcript. -/
theorem c2_loop_turns_witness :
    run_agent_conversation [] (fun i => Except.ok (twoTurnSeq i)) "开始执行。" =
      ⟨2, Except.ok ⟨segWith [] twoTurnSeq "开始执行。" 0 1 ++
          [Message.user (pAt "开始执行。" 1)],
        extract_completion_text (finalTextOf (twoTurnSeq 1))⟩⟩ :=
  c2_loop_turns [] twoTurnSeq "开始执行。" 2 (by omega) (by decide)
    (fun i hi => by
      have h0 : i = 0 := by omega
      subst h0
      rfl)
    (by decide)

/-- C3: the agent loop performs at most 10 provider invocations for every
response sequence, and when all ten return tool calls it terminates normally
with the fixed limit-exceeded message as its result rather than raising. -/
theorem c3_iteration_cap :
    ∀ (ts : List SimTool) (prov : Nat → Except String LLMResponse) (u : String),
    (run_agent_conversation ts prov u).calls ≤ MAX_AGENT_ITERATIONS ∧
    ((∀ i, i < MAX_AGENT_ITERATIONS →
        ∃ r, prov i = Except.ok r ∧ isToolCallResp r = true) →
      ∃ msgs, (run_agent_conversation ts prov u).result =
        Except.ok ⟨msgs, "工具调用超过最大次数限制"⟩) := by
  intro ts prov u
  constructor
  · have h := runAgentIter_calls_le ts prov MAX_AGENT_ITERATIONS 0 [] u
    simpa [run_agent_conversation] using h
  · intro h
    obtain ⟨m2, hm2⟩ := runAgentIter_limit ts prov MAX_AGENT_ITERATIONS 0 [] u
      (fun i hi => by
        have h0 : 0 + i = i := by omega
        rw [h0]
        exact h i hi)
    refine ⟨m2, ?_⟩
    unfold run_agent_conversation
    dsimp only
    rw [hm2]
    dsimp only [Except.map]
    rw [extract_limit]

/-- C3 witness: a provider that always returns tool calls is stopped after at
most ten invocations with the limit-exceeded text as a normal result. -/
theorem c3_iteration_cap_witness :
    (run_agent_conversation [] (fun _ => Except.ok toolResp) "开始执行。").calls ≤
      MAX_AGENT_ITERATIONS ∧
    ∃ msgs, (run_agent_conversation [] (fun _ => Except.ok toolResp) "开始执行。").result =
      Except.ok ⟨msgs, "工具调用超过最大次数限制"⟩ := by
  obtain ⟨h1, h2⟩ := c3_iteration_cap [] (fun _ => Except.ok toolResp) "开始执行。"
  exact ⟨h1, h2 (fun i _ => ⟨toolResp, rfl, rfl⟩)⟩

/-- C6: every tool-dispatch outcome is captured as a tool-result entry and
never aborts the loop — a handler exception becomes a stringified-error
result under the same call id, an unknown tool name a "tool not found"
result — while a provider exception aborts the loop and surfaces as an
execution error. -/
theorem c6_tool_dispatch_errors :
    (∀ (ts : List SimTool) (n : String) (a : ToolArgs) (id : String) t hf e,
      getTool ts n = some t → t.handler = some hf → hf a = Except.error e →
      dispatchToolCall ts n a id = Message.tool id ("工具执行失败: " ++ e)) ∧
    (∀ (ts : List SimTool) (n : String) (a : ToolArgs) (id : String),
      getTool ts n = none →
      dispatchToolCall ts n a id = Message.tool id ("未找到工具: " ++ n)) ∧
    (∀ (ts : List SimTool) (n : String) (a : ToolArgs) (id : String),
      ∃ s, dispatchToolCall ts n a id = Message.tool id s) ∧
    (∀ (ts : List SimTool) (prov : Nat → Except String LLMResponse)
        (rs : Nat → LLMResponse) (u e : String) (m : Nat),
      m < MAX_AGENT_ITERATIONS →
      (∀ i, i < m → prov i = Except.ok (rs i) ∧ isToolCallResp (rs i) = true) →
      prov m = Except.error e →
      run_agent_conversation ts prov u = ⟨m + 1, Except.error e⟩) := by
  refine ⟨?_, ?_, ?_, ?_⟩
  · intro ts n a id t hf e h1 h2 h3
    unfold dispatchToolCall
    rw [h1]
    dsimp only
    rw [h2]
    dsimp only
    rw [h3]
  · intro ts n a id h1
    unfold dispatchToolCall
    rw [h1]
  · intro ts n a id
    unfold dispatchToolCall
    cases getTool ts n with
    | none => exact ⟨_, rfl⟩
    | some t =>
      dsimp only
      cases t.handler with
      | none => exact ⟨_, rfl⟩
      | some hf =>
        dsimp only
        cases hf a with
        | ok r => exact ⟨_, rfl⟩
        | error e => exact ⟨_, rfl⟩
  · intro ts prov rs u e m hm h hpe
    unfold run_agent_conversation
    rw [loop_advance ts prov rs m MAX_AGENT_ITERATIONS 0 [] u (by omega)
      (fun i hi => by
        have h0 : 0 + i = i := by omega
        rw [h0]
        exact h i hi)]
    have hfuel : MAX_AGENT_ITERATIONS - m = (MAX_AGENT_ITERATIONS - (m + 1)) + 1 := by
      omega
    rw [hfuel]
    simp only [runAgentIter]
    rw [show (0 + m) = m by omega, hpe]
    rfl

/-- C6 witness: a raising handler and an unknown tool are both captured as
tool results, and a provider that raises on its first call aborts the loop as
an execution error after one invocation. -/
theorem c6_tool_dispatch_errors_witness :
    dispatchToolCall [failTool, okTool] "fail_tool" [] "id0" =
      Message.tool "id0" ("工具执行失败: " ++ "boom") ∧
    dispatchToolCall [failTool, okTool] "nope" [] "id1" =
      Message.tool "id1" ("未找到工具: " ++ "nope") ∧
    run_agent_conversation [] (fun _ => Except.error "io down") "开始执行。" =
      ⟨0 + 1, Except.error "io down"⟩ :=
  ⟨c6_tool_dispatch_errors.1 [failTool, okTool] "fail_tool" [] "id0" failTool _ "boom"
      rfl rfl rfl,
   c6_tool_dispatch_errors.2.1 [failTool, okTool] "nope" [] "id1" rfl,
   c6_tool_dispatch_errors.2.2.2 [] (fun _ => Except.error "io down")
      (fun _ => toolResp) "开始执行。" "io down" 0 (by decide)
      (fun i hi => absurd hi (Nat.not_lt_zero i)) rfl⟩

/-- Every run of the update handler performs either no host update call or
exactly the single always-all-keywords call `mkUpdateCall`. -/
theorem runUpdateHandler_calls (k : UpdateKwargs) (h : HostBehavior) :
    (runUpdateHandler k h).2 = [] ∨ (runUpdateHandler k h).2 = [mkUpdateCall k] := by
  unfold runUpdateHandler
  by_cases c1 : (!(kwget k.begin_dialogs).isNone && !isStrList (kwget k.begin_dialogs)) = true
  · rw [if_pos c1]
    left
    rfl
  · rw [if_neg c1]
    by_cases c2 : (!(kwget k.begin_dialogs).isNone &&
        !(decide (bdLen (kwget k.begin_dialogs) % 2 = 0))) = true
    · rw [if_pos c2]
      left
      rfl
    · rw [if_neg c2]
      right
      dsimp only
      cases h.updateResult with
      | error e => rfl
      | ok upd =>
        cases upd with
        | some p => rfl
        | none =>
          dsimp only
          cases h.getResult with
          | error e => rfl
          | ok g => cases g <;> rfl

/-- C1 as stated fails: with every optional field omitted from the arguments,
the handler still performs a host update call in which each keyword is present
with the explicit null value `None`, rather than the host receiving no value
for the omitted fields. -/
theorem c1_counterexample :
    (runUpdateHandler kwOmitAll hostOk).2 = [mkUpdateCall kwOmitAll] ∧
    (mkUpdateCall kwOmitAll).system_prompt = some PyVal.pnone ∧
    (mkUpdateCall kwOmitAll).system_prompt ≠ none ∧
    kwOmitAll.system_prompt = none := by
  refine ⟨rfl, rfl, ?_, rfl⟩
  intro h
  exact Option.noConfusion h

/-- C1 amended: a field omitted from the arguments is passed to the host
update call as an explicit null, which the host persona store (which ignores
unset/null fields) leaves unmodified, so omitted fields keep their stored
values; supplying an explicit empty value (empty string or empty list)
instead overwrites the stored field with that empty value, so omission remains
distinguished from empty-value update at the host — though not from an
explicitly supplied null. -/
theorem c1_update_omission :
    ∀ (k : UpdateKwargs) (h : HostBehavior) (p : Persona) (c : HostUpdateCall),
    c ∈ (runUpdateHandler k h).2 →
    (k.system_prompt = none →
      (hostApplyUpdate p c).system_prompt = p.system_prompt) ∧
    (k.begin_dialogs = none →
      (hostApplyUpdate p c).begin_dialogs = p.begin_dialogs) ∧
    (k.tools = none → (hostApplyUpdate p c).tools = p.tools) ∧
    (k.system_prompt = some (PyVal.pstr "") →
      (hostApplyUpdate p c).system_prompt = PyVal.pstr "") ∧
    (k.begin_dialogs = some (PyVal.plist []) →
      (hostApplyUpdate p c).begin_dialogs = PyVal.plist []) ∧
    (k.tools = some (PyVal.plist []) →
      (hostApplyUpdate p c).tools = PyVal.plist []) := by
  intro k h p c hc
  have hcall : c = mkUpdateCall k := by
    rcases runUpdateHandler_calls k h with h0 | h0 <;> rw [h0] at hc
    · cases hc
    · simpa using hc
  subst hcall
  refine ⟨?_, ?_, ?_, ?_, ?_, ?_⟩ <;> intro hk <;>
    simp [hostApplyUpdate, hostFieldUpdate, mkUpdateCall, kwget, hk, PyVal.isNone]

/-- C1 witness: with all optional fields omitted and a succeeding host, the
stored persona is unchanged in every field after the handler's update call is
applied. -/
theorem c1_update_omission_witness :
    (hostApplyUpdate personaA (mkUpdateCall kwOmitAll)).system_prompt =
      personaA.system_prompt ∧
    (hostApplyUpdate personaA (mkUpdateCall kwOmitAll)).begin_dialogs =
      personaA.begin_dialogs ∧
    (hostApplyUpdate personaA (mkUpdateCall kwOmitAll)).tools = personaA.tools := by
  have h := c1_update_omission kwOmitAll hostOk personaA (mkUpdateCall kwOmitAll)
    (by
      rw [show (runUpdateHandler kwOmitAll hostOk).2 = [mkUpdateCall kwOmitAll] from rfl]
      exact List.mem_singleton_self _)
  exact ⟨h.1 rfl, h.2.1 rfl, h.2.2.1 rfl⟩

/-- C5 as stated fails: `begin_dialogs` supplied as the explicit null value is
not a sequence of strings, yet the handler skips the validation and performs
the host update call, returning a success payload. -/
theorem c5_counterexample :
    kwNullBd.begin_dialogs = some PyVal.pnone ∧
    isStrList PyVal.pnone = false ∧
    (runUpdateHandler kwNullBd hostOk).2 = [mkUpdateCall kwNullBd] ∧
    (runUpdateHandler kwNullBd hostOk).2 ≠ [] ∧
    (runUpdateHandler kwNullBd hostOk).1 =
      UpdateResult.okPayload (PyVal.pstr "p") personaA := by
  refine ⟨rfl, rfl, rfl, ?_, rfl⟩
  intro h
  rw [show (runUpdateHandler kwNullBd hostOk).2 = [mkUpdateCall kwNullBd] from rfl] at h
  exact List.cons_ne_nil _ _ h

/-- C5 amended: whenever `begin_dialogs` is supplied with a non-null value
that is either not a sequence of strings or has odd length, the handler
returns a structured validation-error payload and performs no host update
call. -/
theorem c5_begin_dialogs_validation :
    ∀ (k : UpdateKwargs) (h : HostBehavior) (v : PyVal),
    k.begin_dialogs = some v → v.isNone = false →
    (isStrList v = false ∨ bdLen v % 2 = 1) →
    (∃ m, (runUpdateHandler k h).1 = UpdateResult.errPayload m) ∧
    (runUpdateHandler k h).2 = [] := by
  intro k h v hv hnn hbad
  unfold runUpdateHandler
  rw [show kwget k.begin_dialogs = v by rw [hv]; rfl]
  rcases hbad with hb | hb
  · rw [if_pos (by simp [hnn, hb])]
    exact ⟨⟨_, rfl⟩, rfl⟩
  · by_cases hsl : isStrList v = true
    · rw [if_neg (by simp [hnn, hsl])]
      have hodd : ¬ (bdLen v % 2 = 0) := by omega
      rw [if_pos (by simp [hnn, hodd])]
      exact ⟨⟨_, rfl⟩, rfl⟩
    · rw [if_pos (by simp [hnn, Bool.eq_false_iff.mpr hsl])]
      exact ⟨⟨_, rfl⟩, rfl⟩

/-- C5 witness: an odd-length `begin_dialogs` of strings is rejected with a
validation-error payload and no host update call. -/
theorem c5_begin_dialogs_validation_witness :
    (∃ m, (runUpdateHandler kwOddBd hostOk).1 = UpdateResult.errPayload m) ∧
    (runUpdateHandler kwOddBd hostOk).2 = [] :=
  c5_begin_dialogs_validation kwOddBd hostOk (PyVal.plist [PyVal.pstr "x"])
    rfl rfl (Or.inr rfl)
